import Mathlib

/-!
Shallow embedding of `github.com/CAFxX/httpcompression` (file `adapter.go`)
and of the spec-described negotiation helpers that live in files of the
repository not present under `src/` (`parseEncodings`, `acceptedCompression`,
the `compressWriter` state and the candidate ordering).

Conventions of the embedding:
- Go `http.Header` (a map from canonical keys to value lists) is an
  association list with unique keys; `Add` appends to the value list of the
  canonical key, `Del` removes the key, `Values`/`Get` look the canonical
  key up.
- Go errors are `Except String`; a Go functional option `func(c *config) error`
  becomes `config → Except String config`.
- float64 quality values become `Rat`.
-/

namespace Httpc

/-- Header-name constants of `adapter.go` (lines 15-24). -/
def vary : String := "Vary"

def acceptEncoding : String := "Accept-Encoding"

def acceptRanges : String := "Accept-Ranges"

def contentEncoding : String := "Content-Encoding"

def contentLength : String := "Content-Length"

/-- Source constant `_range` of `adapter.go`. -/
def rangeHeader : String := "Range"

def gzipEncoding : String := "gzip"

/-- A byte that may appear in a MIME header token, as in Go
`textproto.validHeaderFieldByte` (letters, digits and the listed symbols). -/
def isTokenChar (c : Char) : Bool :=
  c.isAlphanum ||
    (let n := c.toNat
     n == 33 || n == 35 || n == 36 || n == 37 || n == 38 || n == 39 ||
     n == 42 || n == 43 || n == 45 || n == 46 || n == 94 || n == 95 ||
     n == 96 || n == 124 || n == 126)

/-- Character-wise canonicalization of Go
`textproto.CanonicalMIMEHeaderKey`: uppercase the first letter and every
letter following a hyphen, lowercase the rest. -/
def canonChars : Bool → List Char → List Char
  | _, [] => []
  | up, c :: rest =>
      let c2 := if up then c.toUpper else c.toLower
      c2 :: canonChars (c2 == '-') rest

/-- Go `http.CanonicalHeaderKey`: canonicalize the casing, unless the string
contains a byte that is not a valid header-field byte, in which case it is
returned unmodified. -/
def canonicalHeaderKey (s : String) : String :=
  if s.data.all isTokenChar then String.mk (canonChars true s.data) else s

/-- Go `http.Header`: canonical keys mapped to lists of values. -/
abbrev Header := List (String × List String)

/-- Lookup of the value list stored under a (already canonical) key. -/
def lookupVals : Header → String → List String
  | [], _ => []
  | p :: rest, k => if p.1 == k then p.2 else lookupVals rest k

/-- Go `http.Header.Values`. -/
def headerValues (h : Header) (key : String) : List String :=
  lookupVals h (canonicalHeaderKey key)

/-- Go `http.Header.Get` (first value or the empty string). -/
def headerGet (h : Header) (key : String) : String :=
  (headerValues h key).headD ""

/-- Append a value under an (already canonical) key. -/
def addEntry : Header → String → String → Header
  | [], k, v => [(k, [v])]
  | p :: rest, k, v =>
      if p.1 == k then (p.1, p.2 ++ [v]) :: rest else p :: addEntry rest k v

/-- Go `http.Header.Add`. -/
def headerAdd (h : Header) (key value : String) : Header :=
  addEntry h (canonicalHeaderKey key) value

/-- Go `http.Header.Del`. -/
def headerDel (h : Header) (key : String) : Header :=
  h.filter (fun p => p.1 != canonicalHeaderKey key)

/-- `addVaryHeader` of `adapter.go` (lines 126-134): canonicalize the value,
return unchanged if some existing `Vary` value already canonicalizes to it,
otherwise add it. -/
def addVaryHeader (h : Header) (value : String) : Header :=
  let v := canonicalHeaderKey value
  if (headerValues h vary).any (fun x => canonicalHeaderKey x == v) then h
  else headerAdd h vary v

/-- How many `Vary` values canonicalize to `Accept-Encoding`. -/
def varyAECount (h : Header) : Nat :=
  ((headerValues h vary).filter
    (fun x => canonicalHeaderKey x == acceptEncoding)).length

/-- `n`-fold repetition of `addVaryHeader · acceptEncoding` (the middleware
running `n` times over the same headers). -/
def addVaryN : Nat → Header → Header
  | 0, h => h
  | n + 1, h => addVaryHeader (addVaryN n h) acceptEncoding

/-! ## Qualities and parsed Accept-Encoding entries -/

/-- Go `codings map[string]float64`: a coding name mapped to a client quality
value. Association list with unique keys (later insertion overwrites). -/
abbrev codings := List (String × Rat)

/-- Map update with later-wins semantics (Go `m[k] = v`). -/
def assocSet : codings → String → Rat → codings
  | [], k, q => [(k, q)]
  | p :: rest, k, q =>
      if p.1 == k then (k, q) :: rest else p :: assocSet rest k q

/-- Whitespace trimmed from both ends of a character list. -/
def trimChars (l : List Char) : List Char :=
  ((l.dropWhile Char.isWhitespace).reverse.dropWhile Char.isWhitespace).reverse

/-- ASCII lowercasing of a character list. -/
def lowerChars (l : List Char) : List Char := l.map Char.toLower

/-- Splitting of a character list at a separator (the list analogue of
splitting a string on a one-character separator; never empty). -/
def splitChars (sep : Char) : List Char → List (List Char)
  | [] => [[]]
  | c :: rest =>
      match splitChars sep rest with
      | [] => [[c]]
      | x :: xs => if c == sep then [] :: x :: xs else (c :: x) :: xs

/-- Digits of a character list as a natural number, `none` when the list is
not a non-empty run of decimal digits. -/
def digitsVal (l : List Char) : Option Nat :=
  if l.length != 0 && l.all Char.isDigit then
    some (l.foldl (fun acc c => acc * 10 + (c.toNat - 48)) 0)
  else none

/-- Modelled from the spec: decimal quality-value text (`1`, `0.5`, `.8`) as a
rational; `none` on malformed text. The real parser lives in a repository file
not present under `src/`. -/
def parseDecimal (l : List Char) : Option Rat :=
  match splitChars '.' l with
  | [a] => (digitsVal a).map (fun n => (n : Rat))
  | [a, b] =>
      match (if a.length == 0 then some 0 else digitsVal a), digitsVal b with
      | some n, some f => some (mkRat (n * 10 ^ b.length + f) (10 ^ b.length))
      | _, _ => none
  | _ => none

/-- A `;`-separated parameter of an Accept-Encoding token: the quality it
carries, if it is a well-formed `q=<value>` parameter. -/
def qualityOf (l : List Char) : Option Rat :=
  match lowerChars (trimChars l) with
  | 'q' :: '=' :: rest => parseDecimal rest
  | _ => none

/-- Modelled from the spec (§4.2 step 1): one comma-separated token of the
Accept-Encoding header: a coding name (case-insensitive) optionally followed
by `;q=<value>`; a malformed quality value is treated as `1.0`. The real
`parseEncodings` lives in a repository file not present under `src/`. -/
def parseEncoding (tok : List Char) : Option (String × Rat) :=
  match splitChars ';' tok with
  | [] => none
  | n :: params =>
      let name := lowerChars (trimChars n)
      if name.length == 0 then none
      else
        let q := (params.findSome? qualityOf).getD 1
        some (String.mk name, q)

/-- Modelled from the spec (§4.2 step 1): `parseEncodings` — the raw
Accept-Encoding header value parsed into a coding→quality map; lenient, never
failing. -/
def parseEncodings (raw : String) : codings :=
  (splitChars ',' raw.data).foldl
    (fun acc tok =>
      match parseEncoding tok with
      | some (n, q) => assocSet acc n q
      | none => acc) []

/-! ## Configuration model (`adapter.go` lines 154-237) -/

/-- Modelled from the spec (§3): one entry of the content-type allow-list,
matched exactly or as a type/subtype pattern. The defining file is not under
`src/`; no claim inspects it. -/
structure parsedContentType where
  value : String
  wildcardSubtype : Bool
deriving DecidableEq

/-- `PreferType` of the repository (zero value is `PreferServer`, the default
set by `Adapter`). -/
inductive PreferType where
  | PreferServer
  | PreferClient
deriving DecidableEq

/-- Modelled from the spec (§1, §6): the external compressor providers are
opaque collaborators; the model records which constructor produced a provider
and with which parameter. -/
inductive CompressorProvider where
  | zlibProvider (level : Int)
  | gzipProvider (level : Int)
  | brotliProvider (quality : Int)
  | zstdProvider
  | custom (id : Nat)
deriving DecidableEq

/-- `comp` of `adapter.go` (lines 165-168): a provider plus its priority. -/
structure comp where
  comp : CompressorProvider
  priority : Int
deriving DecidableEq

/-- `comps map[string]comp` of `adapter.go` (line 163): coding name mapped to
its registered compressor. Association list with unique keys. -/
abbrev comps := List (String × comp)

/-- Map update with later-wins semantics (Go `m[k] = v`). -/
def compsSet : comps → String → comp → comps
  | [], k, v => [(k, v)]
  | p :: rest, k, v =>
      if p.1 == k then (k, v) :: rest else p :: compsSet rest k v

/-- `config` of `adapter.go` (lines 155-161). -/
structure config where
  minSize : Int
  contentTypes : List parsedContentType
  blacklist : Bool
  prefer : PreferType
  compressor : comps
deriving DecidableEq

/-- The Go zero value of `config`; `Adapter` starts from it with `prefer` and
`compressor` set explicitly to these same values (lines 48-51). -/
def zeroConfig : config :=
  { minSize := 0, contentTypes := [], blacklist := false,
    prefer := PreferType.PreferServer, compressor := [] }

/-- Go `Option func(c *config) error` (line 171), as explicit state passing. -/
def ConfigOption := config → Except String config

/-- `MinSize` of `adapter.go` (lines 175-183). -/
def MinSize (size : Int) : ConfigOption := fun c =>
  if size < 0 then
    Except.error ("minimum size can not be negative: " ++ toString size)
  else Except.ok { c with minSize := size }

/-- `errorOption` of `adapter.go` (lines 251-255). -/
def errorOption (err : String) : ConfigOption := fun _ => Except.error err

/-- Modelled from the spec (§4.1 `register`): `Compressor(name, priority, g)`
registers a coding, duplicate registration overwriting (later wins). The
defining file is not under `src/`; `adapter.go` calls it at lines 219-237. -/
def Compressor (name : String) (priority : Int) (g : CompressorProvider) :
    ConfigOption := fun c =>
  Except.ok { c with compressor := compsSet c.compressor name ⟨g, priority⟩ }

/-- Encoding name of the contrib zlib package (`zlib.Encoding`). -/
def zlibEncoding : String := "deflate"

/-- Encoding name of the contrib brotli package (`brotli.Encoding`). -/
def brotliEncoding : String := "br"

/-- Encoding name of the contrib zstd package (`zstd.Encoding`). -/
def zstdEncoding : String := "zstd"

/-- `DeflateCompressor` of `adapter.go` (lines 219-222). -/
def DeflateCompressor (g : CompressorProvider) : ConfigOption :=
  Compressor zlibEncoding (-300) g

/-- `GzipCompressor` of `adapter.go` (lines 224-227). -/
def GzipCompressor (g : CompressorProvider) : ConfigOption :=
  Compressor gzipEncoding (-200) g

/-- `BrotliCompressor` of `adapter.go` (lines 229-232). -/
def BrotliCompressor (b : CompressorProvider) : ConfigOption :=
  Compressor brotliEncoding (-100) b

/-- `ZstandardCompressor` of `adapter.go` (lines 234-237). -/
def ZstandardCompressor (b : CompressorProvider) : ConfigOption :=
  Compressor zstdEncoding (-50) b

/-- Go `flate.DefaultCompression` (`zlib.DefaultCompression`). -/
def zlibDefaultCompression : Int := -1

/-- Go `gzip.DefaultCompression`. -/
def gzipDefaultCompression : Int := -1

/-- Contrib `brotli.DefaultCompression` (documented default level 3). -/
def brotliDefaultCompression : Int := 3

/-- Modelled from the spec (§6, out-of-scope collaborator): contrib
`zlib.New`, failing on a level outside the range accepted by `flate`. -/
def zlibNew (level : Int) : Except String CompressorProvider :=
  if level < -2 || 9 < level then Except.error "zlib: invalid compression level"
  else Except.ok (CompressorProvider.zlibProvider level)

/-- Modelled from the spec (§6, out-of-scope collaborator): contrib
`gzip.New`. -/
def cgzipNew (level : Int) : Except String CompressorProvider :=
  if level < -2 || 9 < level then Except.error "gzip: invalid compression level"
  else Except.ok (CompressorProvider.gzipProvider level)

/-- Modelled from the spec (§6, out-of-scope collaborator): contrib
`brotli.New`. -/
def brotliNew (quality : Int) : Except String CompressorProvider :=
  if quality < 0 || 11 < quality then Except.error "brotli: invalid quality"
  else Except.ok (CompressorProvider.brotliProvider quality)

/-- Modelled from the spec (§6, out-of-scope collaborator): contrib
`zstd.New`. -/
def zstdNew : Except String CompressorProvider :=
  Except.ok CompressorProvider.zstdProvider

/-- `DeflateCompressionLevel` of `adapter.go` (lines 188-194). -/
def DeflateCompressionLevel (level : Int) : ConfigOption :=
  match zlibNew level with
  | Except.error e => errorOption e
  | Except.ok c => DeflateCompressor c

/-- `NewDefaultGzipCompressor` of `adapter.go` (lines 239-241). -/
def NewDefaultGzipCompressor (level : Int) : Except String CompressorProvider :=
  cgzipNew level

/-- `GzipCompressionLevel` of `adapter.go` (lines 199-205). -/
def GzipCompressionLevel (level : Int) : ConfigOption :=
  match NewDefaultGzipCompressor level with
  | Except.error e => errorOption e
  | Except.ok c => GzipCompressor c

/-- `BrotliCompressionLevel` of `adapter.go` (lines 211-217). -/
def BrotliCompressionLevel (level : Int) : ConfigOption :=
  match brotliNew level with
  | Except.error e => errorOption e
  | Except.ok c => BrotliCompressor c

/-- `defaultZstandardCompressor` of `adapter.go` (lines 243-249). -/
def defaultZstandardCompressor : ConfigOption :=
  match zstdNew with
  | Except.error e => errorOption ("initializing zstd compressor: " ++ e)
  | Except.ok c => ZstandardCompressor c

/-- `DefaultMinSize` of `adapter.go` (line 37). -/
def DefaultMinSize : Int := 200

/-! ## Negotiation (spec-modelled: the defining file is not under `src/`) -/

/-- Modelled from the spec (§4.2 step 2): the quality a client assigned to a
coding — its explicit entry, or the wildcard entry when it is not explicitly
named. -/
def resolvedQuality (accept : codings) (name : String) : Option Rat :=
  match accept.lookup name with
  | some q => some q
  | none => accept.lookup "*"

/-- Modelled from the spec (§4.2 steps 2-4): `acceptedCompression` — the
registered codings whose resolved client quality is strictly positive;
`identity` is never a candidate. `adapter.go` calls it at line 75. -/
def acceptedCompression (accept : codings) (cs : comps) : List String :=
  cs.filterMap fun p =>
    if p.1 == "identity" then none
    else
      match resolvedQuality accept p.1 with
      | some q => if 0 < q then some p.1 else none
      | none => none

/-- One ordering candidate: a registered coding together with its resolved
client quality and its registered server priority. -/
structure AcceptedEntry where
  name : String
  quality : Rat
  priority : Int
deriving DecidableEq

/-- Modelled from the spec (§4.2 step 5, `PreferServer`): `a` sorts before
`b` when its server priority is higher; ties broken by higher client quality,
then lexical name order. -/
def beforeServer (a b : AcceptedEntry) : Bool :=
  if a.priority != b.priority then b.priority < a.priority
  else if a.quality != b.quality then b.quality < a.quality
  else a.name < b.name || a.name == b.name

/-- Modelled from the spec (§4.2 step 5, `PreferClient`): `a` sorts before
`b` when its client quality is higher; ties broken by higher server priority,
then lexical name order. -/
def beforeClient (a b : AcceptedEntry) : Bool :=
  if a.quality != b.quality then b.quality < a.quality
  else if a.priority != b.priority then b.priority < a.priority
  else a.name < b.name || a.name == b.name

/-- Insertion into a list sorted by `f` (stable). -/
def insertBy (f : AcceptedEntry → AcceptedEntry → Bool) (x : AcceptedEntry) :
    List AcceptedEntry → List AcceptedEntry
  | [] => [x]
  | y :: ys => if f x y then x :: y :: ys else y :: insertBy f x ys

/-- Insertion sort by `f`. -/
def sortBy (f : AcceptedEntry → AcceptedEntry → Bool) :
    List AcceptedEntry → List AcceptedEntry
  | [] => []
  | x :: xs => insertBy f x (sortBy f xs)

/-- Modelled from the spec (§4.2 step 5): the candidate ordering under a
preference policy, best first. -/
def sortCandidates : PreferType → List AcceptedEntry → List AcceptedEntry
  | PreferType.PreferServer, es => sortBy beforeServer es
  | PreferType.PreferClient, es => sortBy beforeClient es

/-! ## The middleware (`Adapter`, `DefaultAdapter`, the per-request serve) -/

/-- Sequential application of the functional options, stopping at the first
failure — the loop of `Adapter` (lines 52-57). -/
def applyOptions (c : config) : List ConfigOption → Except String config
  | [] => Except.ok c
  | o :: rest =>
      match o c with
      | Except.error e => Except.error e
      | Except.ok c2 => applyOptions c2 rest

/-- The value `Adapter` returns on success: either the identity wrapping
function of lines 62-64, or the compressing wrapping closure of lines 70-123
over the finished configuration. -/
inductive Middleware where
  | identity
  | wrap (c : config)
deriving DecidableEq

/-- `Adapter` of `adapter.go` (lines 47-124): apply the options to the zero
configuration (with `PreferServer` and an empty compressor map), return the
first error with no middleware, return the identity middleware when no
compressor was configured, and the wrapping middleware otherwise. -/
def Adapter (opts : List ConfigOption) : Except String Middleware :=
  match applyOptions zeroConfig opts with
  | Except.error e => Except.error e
  | Except.ok c =>
      if c.compressor.isEmpty then Except.ok Middleware.identity
      else Except.ok (Middleware.wrap c)

/-- The default options list of `DefaultAdapter` (lines 143-149). -/
def defaultOptions : List ConfigOption :=
  [DeflateCompressionLevel zlibDefaultCompression,
   GzipCompressionLevel gzipDefaultCompression,
   BrotliCompressionLevel brotliDefaultCompression,
   defaultZstandardCompressor,
   MinSize DefaultMinSize]

/-- `DefaultAdapter` of `adapter.go` (lines 142-152): the defaults, then the
caller's options, passed to `Adapter`. -/
def DefaultAdapter (opts : List ConfigOption) : Except String Middleware :=
  Adapter (defaultOptions ++ opts)

/-- The effective minimum size of a successfully built wrapping middleware. -/
def effectiveMinSize : Except String Middleware → Option Int
  | Except.ok (Middleware.wrap c) => some c.minSize
  | _ => none

/-- An incoming request, reduced to what the middleware reads and writes: its
header map. -/
structure Request where
  header : Header
deriving DecidableEq

/-- What the wrapped handler observes when the per-request closure of
`Adapter` (lines 71-122) runs: the request it is invoked with, the response
header map as already mutated by the middleware, and whether the response
writer was substituted by a `compressWriter`. -/
structure ServeView where
  reqSeen : Request
  respHeaderAtHandler : Header
  wrapped : Bool
deriving DecidableEq

/-- The header-visible behaviour of the per-request closure of `Adapter`
(lines 71-122): add `Vary: Accept-Encoding`, negotiate; on an empty candidate
set serve through the original writer with the request untouched, otherwise
delete the request's `Range` header and substitute the compressing writer. -/
def serve (c : config) (r : Request) (w0 : Header) : ServeView :=
  let w1 := addVaryHeader w0 acceptEncoding
  let accept := parseEncodings (headerGet r.header acceptEncoding)
  let common := acceptedCompression accept c.compressor
  if common.isEmpty then
    { reqSeen := r, respHeaderAtHandler := w1, wrapped := false }
  else
    { reqSeen := { header := headerDel r.header rangeHeader },
      respHeaderAtHandler := w1, wrapped := true }

/-- A handler, reduced to header flow: given the request it sees and the
response headers already set, it produces the final response headers. -/
def Handler := Request → Header → Header

/-- Application of the middleware value to a handler. -/
def applyMiddleware : Middleware → Handler → Handler
  | Middleware.identity, hnd => hnd
  | Middleware.wrap c, hnd => fun r w0 =>
      let v := serve c r w0
      hnd v.reqSeen v.respHeaderAtHandler

/-! ## The wrapper lifecycle (`adapter.go` lines 92-121) -/

/-- The `compressWriter` state, as far as `adapter.go` sets it: the composite
literal of lines 96-102 initializes these five fields; the remaining
per-request fields of the spec's WrapperState (§3: accumulation buffer,
decision flag, byte counter) default to their zero values, as in Go. -/
structure compressWriter where
  responseWriter : Option Nat := none
  config : config := zeroConfig
  accept : codings := []
  common : List String := []
  bufPool : Bool := false
  buffer : List Nat := []
  decisionMade : Bool := false
  byteCount : Nat := 0
deriving DecidableEq

/-- How one request's handler terminates: normal completion (an early return
of the handler is, for the deferred cleanup, a normal completion) or a panic
propagating out of `h.ServeHTTP`. -/
inductive exitKind where
  | normal
  | panicked
deriving DecidableEq

/-- The observable events of the per-request closure once a `compressWriter`
has been acquired: handler activity, the `gw.Close()` call on the wrapper
state the handler left behind, and `writerPool.Put` of a wrapper state. -/
inductive wrapEvent where
  | handlerStep (n : Nat)
  | closeWriter (st : compressWriter)
  | poolPut (st : compressWriter)
deriving DecidableEq

def isCloseEvent : wrapEvent → Bool
  | wrapEvent.closeWriter _ => true
  | _ => false

def isPutEvent : wrapEvent → Bool
  | wrapEvent.poolPut _ => true
  | _ => false

/-- The wrapper lifecycle of lines 92-121 for a request whose candidate set
is non-empty: take a wrapper from the pool (or a fresh zero value), overwrite
it whole with the composite literal of lines 96-102, run the handler — which
mutates the wrapper state arbitrarily (`mutateFull` on normal completion,
the partial mutation `mutatePartial` when it panics at some point) — and then,
by `defer`, on either exit: `gw.Close()`, reset to the zero value, `Put`. -/
def serveWrap (w : Nat) (c : config) (accept : codings) (common : List String)
    (pooled : Option compressWriter)
    (mutateFull mutatePartial : compressWriter → compressWriter)
    (stepsFull stepsPartial : List Nat) (exit : exitKind) : List wrapEvent :=
  let _gw0 := pooled.getD {}
  let gw1 : compressWriter :=
    { responseWriter := some w, config := c, accept := accept,
      common := common, bufPool := true }
  let gw2 := match exit with
    | exitKind.normal => mutateFull gw1
    | exitKind.panicked => mutatePartial gw1
  let body := match exit with
    | exitKind.normal => stepsFull.map wrapEvent.handlerStep
    | exitKind.panicked => stepsPartial.map wrapEvent.handlerStep
  body ++ [wrapEvent.closeWriter gw2, wrapEvent.poolPut {}]

/-! ## Header lemmas -/

lemma canonicalVary : canonicalHeaderKey vary = vary := by decide

lemma canonicalAE : canonicalHeaderKey acceptEncoding = acceptEncoding := by
  decide

lemma lookupVals_addEntry (h : Header) (k v : String) :
    lookupVals (addEntry h k v) k = lookupVals h k ++ [v] := by
  induction h with
  | nil => simp [addEntry, lookupVals]
  | cons p rest ih =>
      cases hpk : p.1 == k with
      | true => simp [addEntry, lookupVals, hpk]
      | false => simp [addEntry, lookupVals, hpk, ih]

lemma addVary_eq_of_pos (h : Header) (hpos : 0 < varyAECount h) :
    addVaryHeader h acceptEncoding = h := by
  have hne : (headerValues h vary).filter
      (fun x => canonicalHeaderKey x == acceptEncoding) ≠ [] := by
    intro hnil
    rw [varyAECount, hnil] at hpos
    simp at hpos
  obtain ⟨x, hx⟩ := List.exists_mem_of_ne_nil _ hne
  have hx2 := List.mem_filter.mp hx
  have hany : (headerValues h vary).any
      (fun x => canonicalHeaderKey x == canonicalHeaderKey acceptEncoding) = true := by
    rw [canonicalAE]
    exact List.any_eq_true.mpr ⟨x, hx2.1, hx2.2⟩
  simp [addVaryHeader, hany]

lemma varyAECount_addVary_of_zero (h : Header) (hz : varyAECount h = 0) :
    varyAECount (addVaryHeader h acceptEncoding) = 1 := by
  have hnil : (headerValues h vary).filter
      (fun x => canonicalHeaderKey x == acceptEncoding) = [] :=
    List.length_eq_zero.mp hz
  have hany : (headerValues h vary).any
      (fun x => canonicalHeaderKey x == acceptEncoding) = false := by
    rw [List.any_eq_false]
    intro x hx hpx
    have : x ∈ (headerValues h vary).filter
        (fun x => canonicalHeaderKey x == acceptEncoding) :=
      List.mem_filter.mpr ⟨hx, hpx⟩
    rw [hnil] at this
    exact absurd this (List.not_mem_nil x)
  have hstep : addVaryHeader h acceptEncoding =
      headerAdd h vary acceptEncoding := by
    simp only [addVaryHeader, canonicalAE, hany, Bool.false_eq_true, if_false]
  rw [hstep, varyAECount, headerValues, headerAdd, canonicalVary]
  rw [lookupVals_addEntry, List.filter_append]
  rw [headerValues, canonicalVary] at hnil
  rw [hnil]
  simp [canonicalAE]

lemma varyAECount_addVaryN_succ (h : Header) (hz : varyAECount h = 0) :
    ∀ n, varyAECount (addVaryN (n + 1) h) = 1 := by
  intro n
  induction n with
  | zero => exact varyAECount_addVary_of_zero h hz
  | succ m ih =>
      show varyAECount (addVaryHeader (addVaryN (m + 1) h) acceptEncoding) = 1
      rw [addVary_eq_of_pos _ (by rw [ih]; exact Nat.one_pos)]
      exact ih

/-! ## The claims -/

/-- **C3**: every response produced through the middleware carries
`Vary: Accept-Encoding` exactly once: starting from headers without it, any
positive number of runs of the middleware's `addVaryHeader` over the same
headers leaves exactly one `Vary` value canonicalizing to `Accept-Encoding`;
and whenever such a value is already present — compared case-insensitively
via `http.CanonicalHeaderKey` — `addVaryHeader` returns the headers
unchanged (idempotence up to header-name case). -/
theorem vary_accept_encoding_exactly_once (h : Header) (n : Nat) :
    (varyAECount h = 0 → 0 < n → varyAECount (addVaryN n h) = 1) ∧
    (0 < varyAECount h → addVaryHeader h acceptEncoding = h) := by
  refine ⟨fun hz hn => ?_, addVary_eq_of_pos h⟩
  obtain ⟨m, rfl⟩ : ∃ m, n = m + 1 := ⟨n - 1, by omega⟩
  exact varyAECount_addVaryN_succ h hz m

/-- Witness for C3: three runs over empty headers yield exactly one
`Vary: Accept-Encoding`; a lower-case existing value already counts, so a
fourth run changes nothing. -/
theorem vary_accept_encoding_exactly_once_witness :
    varyAECount (addVaryN 3 []) = 1 ∧
    addVaryHeader [(vary, ["accept-encoding"])] acceptEncoding =
      [(vary, ["accept-encoding"])] :=
  ⟨(vary_accept_encoding_exactly_once [] 3).1 (by decide) (by decide),
   (vary_accept_encoding_exactly_once [(vary, ["accept-encoding"])] 1).2
     (by decide)⟩

/-- **C9**: whenever `Adapter` produced the wrapping middleware (at least one
compressor configured), the per-request closure adds `Vary: Accept-Encoding`
before negotiation runs: the response headers the handler observes are the
incoming ones with `addVaryHeader` applied, in the pass-through branch just
as in the compressing branch, so a request with an empty candidate set still
receives the `Vary` header. -/
theorem vary_added_before_negotiation (opts : List ConfigOption) (c : config)
    (_hw : Adapter opts = Except.ok (Middleware.wrap c)) (r : Request)
    (w0 : Header) :
    (serve c r w0).respHeaderAtHandler = addVaryHeader w0 acceptEncoding ∧
    (varyAECount w0 = 0 →
      varyAECount (serve c r w0).respHeaderAtHandler = 1) := by
  have h1 : (serve c r w0).respHeaderAtHandler =
      addVaryHeader w0 acceptEncoding := by
    simp only [serve]
    split <;> rfl
  exact ⟨h1, fun hz => by rw [h1]; exact varyAECount_addVary_of_zero w0 hz⟩

/-- Witness for C9: a gzip-only configuration and a request that accepts no
configured coding (empty candidate set) still gets the `Vary` header. -/
theorem vary_added_before_negotiation_witness :
    varyAECount (serve
      { zeroConfig with
          compressor := [("gzip", ⟨CompressorProvider.gzipProvider 1, -200⟩)] }
      ⟨[("Accept-Encoding", ["identity"])]⟩ []).respHeaderAtHandler = 1 :=
  (vary_added_before_negotiation
    [GzipCompressor (CompressorProvider.gzipProvider 1)]
    { zeroConfig with
        compressor := [("gzip", ⟨CompressorProvider.gzipProvider 1, -200⟩)] }
    rfl ⟨[("Accept-Encoding", ["identity"])]⟩ []).2 (by decide)

/-- **C1**: when the options leave the configuration with zero registered
codings, `Adapter` returns the identity middleware of lines 62-64, whose
wrapping function returns the handler unchanged — no header mutation, no
buffering, no pooling (the pools and the per-request closure are never
built). -/
theorem adapter_no_codings_identity (opts : List ConfigOption) (c2 : config)
    (happ : applyOptions zeroConfig opts = Except.ok c2)
    (hempty : c2.compressor = []) :
    Adapter opts = Except.ok Middleware.identity ∧
    ∀ hnd : Handler, applyMiddleware Middleware.identity hnd = hnd := by
  refine ⟨?_, fun hnd => rfl⟩
  unfold Adapter
  rw [happ]
  simp [hempty]

/-- Witness for C1: no options at all configure no compressors, and the
middleware is the identity. -/
theorem adapter_no_codings_identity_witness :
    Adapter [] = Except.ok Middleware.identity :=
  (adapter_no_codings_identity [] zeroConfig rfl rfl).1

lemma lookupVals_filter_ne (h : Header) (k k2 : String) (hne : k ≠ k2) :
    lookupVals (h.filter (fun p => p.1 != k)) k2 = lookupVals h k2 := by
  induction h with
  | nil => rfl
  | cons p rest ih =>
      cases hpk : p.1 != k with
      | false =>
          have hp1 : p.1 = k := by simpa using hpk
          have hp2 : (p.1 == k2) = false := by
            rw [hp1]
            exact beq_eq_false_iff_ne.mpr hne
          simp [List.filter_cons, hpk, lookupVals, hp2, ih]
      | true =>
          simp only [List.filter_cons, hpk, if_pos]
          cases hpk2 : p.1 == k2 with
          | true => simp [lookupVals, hpk2]
          | false => simp [lookupVals, hpk2, ih]

/-- **C4**: the per-request closure removes the request's `Range` header
before the handler runs exactly when the negotiated candidate set is
non-empty (leaving every other request header untouched); with an empty
candidate set the handler receives the request completely unchanged. -/
theorem range_removed_iff_candidates (c : config) (r : Request) (w0 : Header) :
    (acceptedCompression (parseEncodings (headerGet r.header acceptEncoding))
        c.compressor ≠ [] →
      (serve c r w0).reqSeen.header = headerDel r.header rangeHeader ∧
      ∀ k, canonicalHeaderKey k ≠ canonicalHeaderKey rangeHeader →
        headerValues (serve c r w0).reqSeen.header k =
          headerValues r.header k) ∧
    (acceptedCompression (parseEncodings (headerGet r.header acceptEncoding))
        c.compressor = [] →
      (serve c r w0).reqSeen = r) := by
  by_cases hc : acceptedCompression
      (parseEncodings (headerGet r.header acceptEncoding)) c.compressor = []
  · refine ⟨fun hne => absurd hc hne, fun _ => ?_⟩
    simp only [serve, hc]
    rfl
  · have hview : (serve c r w0).reqSeen.header =
        headerDel r.header rangeHeader := by
      simp only [serve]
      rw [if_neg (by simpa [List.isEmpty_iff] using hc)]
    refine ⟨fun _ => ⟨hview, fun k hk => ?_⟩, fun he => absurd he hc⟩
    rw [hview, headerValues, headerDel]
    rw [lookupVals_filter_ne _ _ _ (fun hh => hk (by rw [hh]))]
    rfl

/-- Witness for C4: a gzip-only configuration and a request accepting gzip
and carrying `Range: bytes=0-99` — the handler sees the request without the
`Range` header while `Accept-Encoding` survives untouched. -/
theorem range_removed_iff_candidates_witness :
    (serve
       { zeroConfig with
           compressor := [("gzip", ⟨CompressorProvider.gzipProvider 1, -200⟩)] }
       ⟨[("Accept-Encoding", ["gzip"]), ("Range", ["bytes=0-99"])]⟩
       []).reqSeen.header =
      headerDel [("Accept-Encoding", ["gzip"]), ("Range", ["bytes=0-99"])]
        rangeHeader ∧
    headerValues (serve
       { zeroConfig with
           compressor := [("gzip", ⟨CompressorProvider.gzipProvider 1, -200⟩)] }
       ⟨[("Accept-Encoding", ["gzip"]), ("Range", ["bytes=0-99"])]⟩
       []).reqSeen.header "Accept-Encoding" =
      headerValues [("Accept-Encoding", ["gzip"]), ("Range", ["bytes=0-99"])]
        "Accept-Encoding" := by
  have h := (range_removed_iff_candidates
    { zeroConfig with
        compressor := [("gzip", ⟨CompressorProvider.gzipProvider 1, -200⟩)] }
    ⟨[("Accept-Encoding", ["gzip"]), ("Range", ["bytes=0-99"])]⟩ []).1
    (by decide)
  exact ⟨h.1, h.2 "Accept-Encoding" (by decide)⟩

lemma applyOptions_append (c : config) (xs ys : List ConfigOption) :
    applyOptions c (xs ++ ys) =
      match applyOptions c xs with
      | Except.error e => Except.error e
      | Except.ok c2 => applyOptions c2 ys := by
  induction xs generalizing c with
  | nil => rfl
  | cons o rest ih =>
      show (match o c with
        | Except.error e => Except.error e
        | Except.ok c2 => applyOptions c2 (rest ++ ys)) =
        (match (match o c with
          | Except.error e => Except.error e
          | Except.ok c2 => applyOptions c2 rest) with
        | Except.error e => Except.error e
        | Except.ok c2 => applyOptions c2 ys)
      cases ho : o c with
      | error e => rfl
      | ok c2 => exact ih c2

/-- **C5**: middleware construction fails atomically: whenever the options
before some option `o` apply cleanly and `o` fails, `Adapter` returns
exactly `o`'s error and no middleware, whatever options follow `o` (they are
never applied); a negative `MinSize` and `errorOption` (which wraps
compressor-construction failures) are such failing options. -/
theorem adapter_fails_atomically :
    (∀ (pre post : List ConfigOption) (o : ConfigOption) (c2 : config)
        (e : String),
      applyOptions zeroConfig pre = Except.ok c2 → o c2 = Except.error e →
      Adapter (pre ++ o :: post) = Except.error e) ∧
    (∀ size : Int, size < 0 → ∀ c, MinSize size c =
      Except.error ("minimum size can not be negative: " ++ toString size)) ∧
    (∀ (e : String) (c : config), errorOption e c = Except.error e) := by
  refine ⟨?_, ?_, fun e c => rfl⟩
  · intro pre post o c2 e hpre ho
    unfold Adapter
    rw [applyOptions_append, hpre]
    show (match applyOptions c2 (o :: post) with
      | Except.error e => Except.error e
      | Except.ok c =>
          if c.compressor.isEmpty then Except.ok Middleware.identity
          else Except.ok (Middleware.wrap c) : Except String Middleware) = _
    unfold applyOptions
    rw [ho]
  · intro size hneg c
    unfold MinSize
    rw [if_pos hneg]

/-- Witness for C5: `MinSize (-1)` in the middle of an option list makes
`Adapter` fail with exactly its error; the trailing option is irrelevant. -/
theorem adapter_fails_atomically_witness :
    Adapter ([] ++ MinSize (-1) :: [MinSize 5]) =
      Except.error ("minimum size can not be negative: " ++ toString (-1 : Int)) :=
  adapter_fails_atomically.1 [] [MinSize 5] (MinSize (-1)) zeroConfig
    ("minimum size can not be negative: " ++ toString (-1 : Int)) rfl
    (adapter_fails_atomically.2.1 (-1) (by decide) zeroConfig)

lemma filter_handlerSteps (p : wrapEvent → Bool)
    (hp : ∀ n, p (wrapEvent.handlerStep n) = false) (l : List Nat) :
    (l.map wrapEvent.handlerStep).filter p = [] := by
  induction l with
  | nil => rfl
  | cons a rest ih => simp [List.filter_cons, hp, ih]

lemma filter_close_shape (l : List Nat) (a b : compressWriter) :
    (l.map wrapEvent.handlerStep ++
        [wrapEvent.closeWriter a, wrapEvent.poolPut b]).filter isCloseEvent =
      [wrapEvent.closeWriter a] := by
  rw [List.filter_append, filter_handlerSteps isCloseEvent fun n => rfl]
  rfl

lemma filter_put_shape (l : List Nat) (a b : compressWriter) :
    (l.map wrapEvent.handlerStep ++
        [wrapEvent.closeWriter a, wrapEvent.poolPut b]).filter isPutEvent =
      [wrapEvent.poolPut b] := by
  rw [List.filter_append, filter_handlerSteps isPutEvent fun n => rfl]
  rfl

lemma filter_both_shape (l : List Nat) (a b : compressWriter) :
    (l.map wrapEvent.handlerStep ++
        [wrapEvent.closeWriter a, wrapEvent.poolPut b]).filter
        (fun e => isCloseEvent e || isPutEvent e) =
      [wrapEvent.closeWriter a, wrapEvent.poolPut b] := by
  rw [List.filter_append,
    filter_handlerSteps (fun e => isCloseEvent e || isPutEvent e)
      fun n => rfl]
  rfl

/-- **C2**: once a `compressWriter` has been acquired (non-empty candidate
set), on every exit path — normal completion (early returns included) or a
panic out of the handler — the deferred block of lines 103-113 runs:
`gw.Close()` is invoked exactly once (on whatever state the handler left the
wrapper in), the `Close` precedes the `Put`, and the single state handed to
`writerPool.Put` is the zero value of `compressWriter` — no sink reference,
no buffer contents, no decision state; this holds for every handler
behaviour (`mf`, `mp`) and every previously pooled state. -/
theorem close_once_pool_zeroed (w : Nat) (c : config) (accept : codings)
    (common : List String) (pooled : Option compressWriter)
    (mf mp : compressWriter → compressWriter) (sf sp : List Nat)
    (exit : exitKind) :
    ∃ st, (serveWrap w c accept common pooled mf mp sf sp exit).filter
        (fun e => isCloseEvent e || isPutEvent e) =
        [wrapEvent.closeWriter st, wrapEvent.poolPut {}] ∧
      (serveWrap w c accept common pooled mf mp sf sp exit).filter
        isCloseEvent = [wrapEvent.closeWriter st] ∧
      (serveWrap w c accept common pooled mf mp sf sp exit).filter
        isPutEvent = [wrapEvent.poolPut {}] := by
  cases exit with
  | normal =>
      exact ⟨_, filter_both_shape sf _ _, filter_close_shape sf _ _,
        filter_put_shape sf _ _⟩
  | panicked =>
      exact ⟨_, filter_both_shape sp _ _, filter_close_shape sp _ _,
        filter_put_shape sp _ _⟩

/-- Counterexample for **C6**: a middleware built with plain `Adapter`, one
compressor registered and no `MinSize` option, has an effective minimum size
of `0` (the Go zero value of `config.minSize`), not `200` — the `200`
default is only injected by `DefaultAdapter`. -/
theorem default_min_size_counterexample :
    effectiveMinSize
        (Adapter [GzipCompressor (CompressorProvider.gzipProvider (-1))]) =
      some 0 ∧
    effectiveMinSize
        (Adapter [GzipCompressor (CompressorProvider.gzipProvider (-1))]) ≠
      some 200 :=
  ⟨by decide, by decide⟩

/-- **C6 (amended)**: `DefaultMinSize` is `200` and it is the effective
minimum size for middleware built through `DefaultAdapter` when the caller
supplies no `MinSize` option; a middleware built through plain `Adapter`
without a `MinSize` option has effective minimum size `0`, the Go zero
value. -/
theorem default_min_size_amended :
    DefaultMinSize = 200 ∧
    effectiveMinSize (DefaultAdapter []) = some 200 ∧
    (∀ g, effectiveMinSize (DefaultAdapter [BrotliCompressor g]) = some 200) ∧
    (∀ g, effectiveMinSize (Adapter [GzipCompressor g]) = some 0) :=
  ⟨rfl, by decide, fun g => rfl, fun g => rfl⟩

/-- **C7**: the built-in coding options register the reserved priorities
deflate = −300, gzip = −200, brotli = −100, zstd = −50; the constants are
strictly increasing along the listing deflate, gzip, brotli, zstd, so under
the default `PreferServer` policy — candidates ordered by descending server
priority — each coding listed later is preferred over each one listed
earlier: with equal client qualities the ordering is zstd, br, gzip, deflate
(best first). -/
theorem builtin_priorities_order :
    (∀ g, DeflateCompressor g = Compressor zlibEncoding (-300) g) ∧
    (∀ g, GzipCompressor g = Compressor gzipEncoding (-200) g) ∧
    (∀ g, BrotliCompressor g = Compressor brotliEncoding (-100) g) ∧
    (∀ g, ZstandardCompressor g = Compressor zstdEncoding (-50) g) ∧
    ((-300 : Int) < -200 ∧ (-200 : Int) < -100 ∧ (-100 : Int) < -50) ∧
    sortCandidates PreferType.PreferServer
      [⟨zlibEncoding, 1, -300⟩, ⟨gzipEncoding, 1, -200⟩,
       ⟨brotliEncoding, 1, -100⟩, ⟨zstdEncoding, 1, -50⟩] =
      [⟨zstdEncoding, 1, -50⟩, ⟨brotliEncoding, 1, -100⟩,
       ⟨gzipEncoding, 1, -200⟩, ⟨zlibEncoding, 1, -300⟩] :=
  ⟨fun g => rfl, fun g => rfl, fun g => rfl, fun g => rfl, by decide,
    by decide⟩

lemma acceptedCompression_sound (accept : codings) (cs : comps) (n : String)
    (hm : n ∈ acceptedCompression accept cs) :
    (∃ e, (n, e) ∈ cs) ∧
      ∃ q, resolvedQuality accept n = some q ∧ 0 < q := by
  rw [acceptedCompression, List.mem_filterMap] at hm
  obtain ⟨p, hp, hf⟩ := hm
  split at hf
  · exact absurd hf (by simp)
  · split at hf
    · split at hf
      · obtain rfl : p.1 = n := by simpa using hf
        refine ⟨⟨p.2, by simpa using hp⟩, ?_⟩
        next q hq _ => exact ⟨q, hq, by assumption⟩
      · exact absurd hf (by simp)
    · exact absurd hf (by simp)

/-- **C8**: for every Accept-Encoding header value and every registered
compressor map, the candidate set of `acceptedCompression` is a subset of
the registered coding names, every member has a resolved client quality
strictly greater than `0`, and a coding the client explicitly listed with
`q=0` is never selected. -/
theorem accepted_compression_subset_positive (raw : String) (cs : comps) :
    (∀ n, n ∈ acceptedCompression (parseEncodings raw) cs →
      ∃ e, (n, e) ∈ cs) ∧
    (∀ n, n ∈ acceptedCompression (parseEncodings raw) cs →
      ∃ q, resolvedQuality (parseEncodings raw) n = some q ∧ 0 < q) ∧
    (∀ n, (parseEncodings raw).lookup n = some 0 →
      n ∉ acceptedCompression (parseEncodings raw) cs) := by
  refine ⟨fun n hn => (acceptedCompression_sound _ _ _ hn).1,
    fun n hn => (acceptedCompression_sound _ _ _ hn).2, fun n hq0 hmem => ?_⟩
  obtain ⟨q, hq, hpos⟩ := (acceptedCompression_sound _ _ _ hmem).2
  rw [resolvedQuality, hq0] at hq
  obtain rfl : (0 : Rat) = q := by simpa using hq
  exact absurd hpos (lt_irrefl 0)

/-- Witness for C8: with `Accept-Encoding: gzip;q=0.5, br;q=0` and gzip and
brotli registered, gzip is a registered member with positive quality and
brotli (explicitly `q=0`) is excluded. -/
theorem accepted_compression_subset_positive_witness :
    (∃ e, (("gzip" : String), e) ∈
      ([("gzip", ⟨CompressorProvider.gzipProvider 1, -200⟩),
        ("br", ⟨CompressorProvider.brotliProvider 3, -100⟩)] : comps)) ∧
    "br" ∉ acceptedCompression (parseEncodings "gzip;q=0.5, br;q=0")
      [("gzip", ⟨CompressorProvider.gzipProvider 1, -200⟩),
       ("br", ⟨CompressorProvider.brotliProvider 3, -100⟩)] :=
  ⟨(accepted_compression_subset_positive "gzip;q=0.5, br;q=0"
      [("gzip", ⟨CompressorProvider.gzipProvider 1, -200⟩),
       ("br", ⟨CompressorProvider.brotliProvider 3, -100⟩)]).1
      "gzip" (by decide),
   (accepted_compression_subset_positive "gzip;q=0.5, br;q=0"
      [("gzip", ⟨CompressorProvider.gzipProvider 1, -200⟩),
       ("br", ⟨CompressorProvider.brotliProvider 3, -100⟩)]).2.2
      "br" (by decide)⟩

/-- **C10**: `DefaultAdapter` with no caller options registers exactly the
four built-in codings — deflate (−300), gzip (−200), brotli (−100), zstd
(−50), each constructed at its library-default compression level — with a
minimum size of `200`; the caller's options are appended after the defaults
(so they are applied later, overriding the defaults for the same setting,
as a caller-supplied `MinSize` shows). -/
theorem default_adapter_contents :
    DefaultAdapter [] = Except.ok (Middleware.wrap
      { minSize := 200, contentTypes := [], blacklist := false,
        prefer := PreferType.PreferServer,
        compressor :=
          [(zlibEncoding,
            ⟨CompressorProvider.zlibProvider zlibDefaultCompression, -300⟩),
           (gzipEncoding,
            ⟨CompressorProvider.gzipProvider gzipDefaultCompression, -200⟩),
           (brotliEncoding,
            ⟨CompressorProvider.brotliProvider brotliDefaultCompression,
             -100⟩),
           (zstdEncoding, ⟨CompressorProvider.zstdProvider, -50⟩)] }) ∧
    (∀ opts, DefaultAdapter opts = Adapter (defaultOptions ++ opts)) ∧
    (∀ size : Int, 0 ≤ size →
      effectiveMinSize (DefaultAdapter [MinSize size]) = some size) := by
  refine ⟨rfl, fun opts => rfl, fun size hsz => ?_⟩
  show effectiveMinSize (Adapter (defaultOptions ++ [MinSize size])) = _
  rw [Adapter, applyOptions_append]
  rw [show applyOptions zeroConfig defaultOptions = Except.ok
    { minSize := 200, contentTypes := [], blacklist := false,
      prefer := PreferType.PreferServer,
      compressor :=
        [(zlibEncoding,
          ⟨CompressorProvider.zlibProvider zlibDefaultCompression, -300⟩),
         (gzipEncoding,
          ⟨CompressorProvider.gzipProvider gzipDefaultCompression, -200⟩),
         (brotliEncoding,
          ⟨CompressorProvider.brotliProvider brotliDefaultCompression,
           -100⟩),
         (zstdEncoding, ⟨CompressorProvider.zstdProvider, -50⟩)] } from rfl]
  simp only [applyOptions, MinSize, if_neg (not_lt.mpr hsz)]
  rfl

/-- Witness for C10: a caller-supplied `MinSize 42` overrides the default
`200`. -/
theorem default_adapter_contents_witness :
    effectiveMinSize (DefaultAdapter [MinSize 42]) = some 42 :=
  default_adapter_contents.2.2 42 (by decide)

end Httpc

